import Mathlib

/-!
Verification of the encrypted-object vault (`deepak-ff/cloud`).

Shallow embedding of:
- `src/hi/server/utils/encryption.js` (class `AdvancedEncryption`)
- the `/download` route of the file routes module (`src/unnamed/part_002`)
- `src/unnamed/part_003` (class `CloudStorage`: `deleteFile` and backends)
- the `/cleanup` route of `src/hi/server/routes/storage.js`

Byte buffers (Node `Buffer`) are `List Nat` with bytes `< 256` where that
matters.  JS strings are Lean `String`s, except in the reconciliation model
where keys are `List Char` for direct structural reasoning (a JS string is
its character sequence).  The cryptographic primitives PBKDF2-SHA512,
SHA-512 and AES-256-GCM via `createCipher`/`createDecipher` are external
library calls in the source; they are abstracted as the fields of a
`CryptoPrims` record, with their standard contracts (determinism, round
trip, authenticity, digest size) taken as explicit hypotheses where a
theorem needs them, and concrete executable instances supplied in
witnesses.  Everything surrounding those calls — key handling, metadata
assembly, hex/base64 transcoding, integrity hashing, the verify-then-decrypt
order, error wrapping, response mapping, deletion and reconciliation — is
translated directly from the source.
-/

namespace Cloud

/-! ### Hex transcoding (Node `Buffer.toString('hex')` / `Buffer.from(s, 'hex')`) -/


/-- Hex digit character for a value `< 16` (lowercase, as Node emits). -/
def hexChar (n : Nat) : Char :=
  if n < 10 then Char.ofNat (48 + n) else Char.ofNat (87 + n)


/-- Hex encoding of a byte list, two digits per byte. -/
def hexEncodeL : List Nat → List Char
  | [] => []
  | b :: rest => hexChar (b / 16 % 16) :: hexChar (b % 16) :: hexEncodeL rest


def hexEncode (l : List Nat) : String := String.mk (hexEncodeL l)


/-- Value of a hex digit character, `none` for a non-hex character. -/
def hexDigitVal (c : Char) : Option Nat :=
  if '0' ≤ c ∧ c ≤ '9' then some (c.toNat - 48)
  else if 'a' ≤ c ∧ c ≤ 'f' then some (c.toNat - 87)
  else if 'A' ≤ c ∧ c ≤ 'F' then some (c.toNat - 55)
  else none


/-- Hex decoding with Node semantics: decode complete hex pairs, stop at the
first invalid character or lone trailing digit (`Buffer.from(s, 'hex')`). -/
def hexDecodeL : List Char → List Nat
  | c1 :: c2 :: rest =>
    match hexDigitVal c1, hexDigitVal c2 with
    | some h, some l => (16 * h + l) :: hexDecodeL rest
    | _, _ => []
  | _ => []


def hexDecode (s : String) : List Nat := hexDecodeL s.toList


/-! ### Base64 transcoding (Node `buffer.toString('base64')` / `Buffer.from(s, 'base64')`) -/


/-- Base64 alphabet character for a sextet `< 64`. -/
def b64Char (n : Nat) : Char :=
  if n < 26 then Char.ofNat (65 + n)
  else if n < 52 then Char.ofNat (97 + (n - 26))
  else if n < 62 then Char.ofNat (48 + (n - 52))
  else if n = 62 then '+' else '/'


/-- Sextet value of a base64 character (unspecified junk for invalid input,
which the decoder is never handed by this code base). -/
def b64Val (c : Char) : Nat :=
  if 'A' ≤ c ∧ c ≤ 'Z' then c.toNat - 65
  else if 'a' ≤ c ∧ c ≤ 'z' then c.toNat - 97 + 26
  else if '0' ≤ c ∧ c ≤ '9' then c.toNat - 48 + 52
  else if c = '+' then 62 else 63


/-- Standard base64 encoding with `=` padding. -/
def base64EncodeL : List Nat → List Char
  | [] => []
  | [a] => [b64Char (a / 4), b64Char (a % 4 * 16), '=', '=']
  | [a, b] => [b64Char (a / 4), b64Char (a % 4 * 16 + b / 16), b64Char (b % 16 * 4), '=']
  | a :: b :: c :: rest =>
    b64Char (a / 4) :: b64Char (a % 4 * 16 + b / 16) ::
    b64Char (b % 16 * 4 + c / 64) :: b64Char (c % 64) :: base64EncodeL rest


/-- Base64 decoding of well-formed (encoder-produced) input. -/
def base64DecodeL : List Char → List Nat
  | c1 :: c2 :: c3 :: c4 :: rest =>
    if c3 = '=' then [b64Val c1 * 4 + b64Val c2 / 16]
    else if c4 = '=' then
      [b64Val c1 * 4 + b64Val c2 / 16, b64Val c2 % 16 * 16 + b64Val c3 / 4]
    else
      (b64Val c1 * 4 + b64Val c2 / 16) :: (b64Val c2 % 16 * 16 + b64Val c3 / 4) ::
      (b64Val c3 % 4 * 64 + b64Val c4) :: base64DecodeL rest
  | _ => []


def base64Encode (l : List Nat) : String := String.mk (base64EncodeL l)


def base64Decode (s : String) : List Nat := base64DecodeL s.toList


/-! ### Substring search (JS `String.prototype.includes`) -/


/-- Occurrence of `sub` as a contiguous substring (JS `includes`). -/
def occursIn (sub : List Char) : List Char → Bool
  | [] => sub.isEmpty
  | c :: rest => sub.isPrefixOf (c :: rest) || occursIn sub rest


/-- JS `s.includes(sub)` on Lean strings. -/
def strIncludes (s sub : String) : Bool := occursIn sub.toList s.toList


/-! ### Data model of `encryption.js`

`CipherMetadata` is the object literal built at `encryption.js:54-61`;
`Wrapper` is the object built at `encryption.js:154-163`. -/

structure CipherMetadata where
  salt : String
  iv : String
  tag : String
  algorithm : String
  iterations : Nat
  version : String
deriving DecidableEq


structure EncryptResult where
  encrypted : String
  metadata : CipherMetadata
  integrity : String
deriving DecidableEq


structure Wrapper where
  id : String
  filename : String
  originalSize : Nat
  encryptedSize : Nat
  timestamp : Nat
  metadata : CipherMetadata
  integrity : String
  version : String
deriving DecidableEq


structure SecureFileResult where
  wrapper : Wrapper
  encryptedData : String
deriving DecidableEq


/-- Abstracted Node `crypto` primitives, exactly at the call shapes used by
`encryption.js`:
- `pbkdf2sha512 password salt` is `crypto.pbkdf2(password, salt, 100000, 32, 'sha512')`
  (iteration count and key length are the fixed constants of the class);
- `sha512hex s` is `crypto.createHash('sha512').update(s).digest('hex')`;
- `gcmEncrypt key data` is the `createCipher('aes-256-gcm', key)` →
  `setAAD('CloudEncryptionApp')` → `update(data,'utf8','hex')`/`final('hex')` →
  `getAuthTag().toString('hex')` sequence, returning (hex ciphertext, hex tag).
  Note the call receives the derived key ONLY — `createCipher` (deprecated)
  derives its IV internally and the source never passes the generated IV;
- `gcmDecrypt key encryptedHex tagHex` is the matching
  `createDecipher('aes-256-gcm', key)` → `setAuthTag` → `setAAD` →
  `update(hex,'utf8')`/`final('utf8')` sequence, throwing on tag mismatch. -/
structure CryptoPrims where
  pbkdf2sha512 : String → List Nat → List Nat
  sha512hex : String → String
  gcmEncrypt : List Nat → String → String × String
  gcmDecrypt : List Nat → String → String → Except String String


/-- Per-call randomness and environment of a `create`: the outputs of
`generateSalt()` (`crypto.randomBytes(32)`), `generateIV()`
(`crypto.randomBytes(16)`), `crypto.randomUUID()` and `Date.now()`. -/
structure Rnd where
  salt : List Nat
  iv : List Nat
  fileId : String
  timestamp : Nat


/-- Node `JSON.stringify` of the `CipherMetadata` object (insertion order of
the object literal at `encryption.js:54-61`). -/
def stringifyMetadata (m : CipherMetadata) : String :=
  "\x7b\"salt\":\"" ++ m.salt ++ "\",\"iv\":\"" ++ m.iv ++ "\",\"tag\":\"" ++ m.tag ++
  "\",\"algorithm\":\"" ++ m.algorithm ++ "\",\"iterations\":" ++ toString m.iterations ++
  ",\"version\":\"" ++ m.version ++ "\"\x7d"


/-- Embedding of `deriveKey` (`encryption.js:31-34`): a single
`crypto.pbkdf2` call.  Node's `pbkdf2` rejects only argument-type errors
(not representable in this typed embedding) and imposes no requirement on
salt length or password content, so the function has no failure path; the
`Except` codomain records that callers treat it as fallible. -/
def deriveKey (cp : CryptoPrims) (password : String) (salt : List Nat) :
    Except String (List Nat) :=
  Except.ok (cp.pbkdf2sha512 password salt)


/-- Embedding of `generateIntegrityHash` (`encryption.js:115-118`). -/
def generateIntegrityHash (cp : CryptoPrims) (encryptedData : String)
    (metadata : CipherMetadata) : String :=
  cp.sha512hex (encryptedData ++ stringifyMetadata metadata)


/-- Node `crypto.timingSafeEqual` on two byte buffers: throws when the
lengths differ, otherwise constant-time equality. -/
def timingSafeEqual (a b : List Nat) : Except String Bool :=
  if a.length = b.length then Except.ok (a == b)
  else Except.error "Input buffers must have the same byte length"


/-- Embedding of `verifyIntegrity` (`encryption.js:123-129`): recompute the
digest and compare the two hex-decoded buffers with `timingSafeEqual`. -/
def verifyIntegrity (cp : CryptoPrims) (encryptedData : String)
    (metadata : CipherMetadata) (expectedHash : String) : Except String Bool :=
  timingSafeEqual (hexDecode (generateIntegrityHash cp encryptedData metadata))
    (hexDecode expectedHash)


/-- Embedding of `encrypt` (`encryption.js:39-71`).  The salt and IV inputs
stand for the `generateSalt()`/`generateIV()` calls.  Note, exactly as in
the source: the derived key (and only it) is handed to the cipher; the
generated IV is merely hex-recorded in the metadata. -/
def encrypt (cp : CryptoPrims) (rnd : Rnd) (data password : String) : EncryptResult :=
  let salt := rnd.salt
  let iv := rnd.iv
  let key := cp.pbkdf2sha512 password salt
  let ct := cp.gcmEncrypt key data
  let metadata : CipherMetadata :=
    { salt := hexEncode salt
      iv := hexEncode iv
      tag := ct.2
      algorithm := "aes-256-gcm"
      iterations := 100000
      version := "1.0.0" }
  { encrypted := ct.1
    metadata := metadata
    integrity := generateIntegrityHash cp ct.1 metadata }


/-- Embedding of `decrypt` (`encryption.js:76-94`).  The salt and IV are
hex-decoded from the metadata; the IV (like the source's `iv` local) is
never handed to the cipher, since `createDecipher` takes only the key.  Any
cipher failure is re-thrown as `Decryption failed: <message>`. -/
def decrypt (cp : CryptoPrims) (encryptedData : String) (metadata : CipherMetadata)
    (password : String) : Except String String :=
  let salt := hexDecode metadata.salt
  let _iv := hexDecode metadata.iv
  let key := cp.pbkdf2sha512 password salt
  match cp.gcmDecrypt key encryptedData metadata.tag with
  | Except.ok d => Except.ok d
  | Except.error e => Except.error ("Decryption failed: " ++ e)


/-- Embedding of `encryptFile` (`encryption.js:99-102`): base64 the buffer,
then `encrypt`. -/
def encryptFile (cp : CryptoPrims) (rnd : Rnd) (fileBuffer : List Nat)
    (password : String) : EncryptResult :=
  encrypt cp rnd (base64Encode fileBuffer) password


/-- Embedding of `decryptFile` (`encryption.js:107-110`): `decrypt`, then
decode the base64 plaintext back to a buffer. -/
def decryptFile (cp : CryptoPrims) (encryptedData : String) (metadata : CipherMetadata)
    (password : String) : Except String (List Nat) :=
  (decrypt cp encryptedData metadata password).map base64Decode


/-- Embedding of `createSecureFileWrapper` (`encryption.js:146-169`). -/
def createSecureFileWrapper (cp : CryptoPrims) (rnd : Rnd) (fileBuffer : List Nat)
    (password filename : String) : SecureFileResult :=
  let encryptionResult := encryptFile cp rnd fileBuffer password
  { wrapper :=
      { id := rnd.fileId
        filename := filename
        originalSize := fileBuffer.length
        encryptedSize := encryptionResult.encrypted.length
        timestamp := rnd.timestamp
        metadata := encryptionResult.metadata
        integrity := encryptionResult.integrity
        version := "1.0.0" }
    encryptedData := encryptionResult.encrypted }


/-! ### Download route (`src/unnamed/part_002`, `router.post('/download')`) -/


/-- Outcome of the open path of the download route (lines 97-107):
`ok` is a successful `res.send(decryptedBuffer)`; `integrityFailed` is the
explicit `File integrity check failed` early return (line 99); `caught` is
any exception reaching the route's `catch` (line 116), carrying
`error.message`. -/
inductive OpenOutcome where
  | ok (plain : List Nat)
  | integrityFailed
  | caught (msg : String)
deriving DecidableEq


/-- Embedding of the open path of `router.post('/download')` (lines 97-107):
verify integrity first — `false` returns the integrity failure without
touching the cipher; only on `true` is `decryptFile` invoked.  A throw from
`verifyIntegrity` or `decryptFile` lands in the route's `catch`. -/
def openWrapper (cp : CryptoPrims) (encryptedData : String) (wrapper : Wrapper)
    (password : String) : OpenOutcome :=
  match verifyIntegrity cp encryptedData wrapper.metadata wrapper.integrity with
  | Except.error e => OpenOutcome.caught e
  | Except.ok false => OpenOutcome.integrityFailed
  | Except.ok true =>
    match decryptFile cp encryptedData wrapper.metadata password with
    | Except.error e => OpenOutcome.caught e
    | Except.ok buf => OpenOutcome.ok buf


/-- HTTP result of the download route: either the decrypted file is sent, or
a JSON error body with a status code. -/
inductive RouteResult where
  | file (bytes : List Nat)
  | jsonError (status : Nat) (error : String)
deriving DecidableEq


/-- Embedding of the download route's response mapping (lines 98-122): the
integrity branch answers 400 `File integrity check failed`; the `catch`
answers 400 `Invalid password or corrupted file` exactly when
`error.message.includes('Decryption failed')`, else 500. -/
def downloadResponse (o : OpenOutcome) : RouteResult :=
  match o with
  | OpenOutcome.ok buf => RouteResult.file buf
  | OpenOutcome.integrityFailed => RouteResult.jsonError 400 "File integrity check failed"
  | OpenOutcome.caught e =>
    if strIncludes e "Decryption failed" then
      RouteResult.jsonError 400 "Invalid password or corrupted file"
    else RouteResult.jsonError 500 "Failed to download file"


/-! ### Blob-store deletion (`src/unnamed/part_003`)

The store is a finite key→content map, written as an association list.
`deleteFromLocal` is `fs.unlink` semantics: ENOENT on a missing path.
`deleteFromS3` is `s3.deleteObject` semantics: AWS acknowledges deletion of
a nonexistent key, so it succeeds unconditionally. -/

abbrev Store := List (String × String)


inductive StorageType where
  | s3
  | local
deriving DecidableEq


/-- Embedding of `deleteFromLocal` (part_003 lines 147-151): `fs.unlink`
throws `ENOENT` when no file exists at the path. -/
def deleteFromLocal (store : Store) (key : String) : Except String Store :=
  if store.any (fun kv => kv.1 == key) then
    Except.ok (store.filter (fun kv => !(kv.1 == key)))
  else Except.error "ENOENT: no such file or directory, unlink"


/-- Embedding of `deleteFromS3` (part_003 lines 110-118): `deleteObject`
succeeds whether or not the key exists. -/
def deleteFromS3 (store : Store) (key : String) : Except String Store :=
  Except.ok (store.filter (fun kv => !(kv.1 == key)))


/-- Embedding of `deleteFile` (part_003 lines 59-69): dispatch on the
backend and re-throw any failure as `Delete failed: <message>`. -/
def deleteFile (t : StorageType) (store : Store) (key : String) : Except String Store :=
  match (match t with
         | StorageType.s3 => deleteFromS3 store key
         | StorageType.local => deleteFromLocal store key) with
  | Except.ok s => Except.ok s
  | Except.error e => Except.error ("Delete failed: " ++ e)


/-- Embedding of the deletion loop of the `/cleanup` route
(`storage.js:138-145`): each orphan is deleted inside a `try`; on success it
is pushed onto `cleanedFiles`, on failure it is logged and skipped. Returns
the final store and `cleanedFiles`. -/
def cleanupDeleteLoop (t : StorageType) (store : Store) :
    List String → Store × List String
  | [] => (store, [])
  | k :: rest =>
    match deleteFile t store k with
    | Except.ok s' =>
      let r := cleanupDeleteLoop t s' rest
      (r.1, k :: r.2)
    | Except.error _ => cleanupDeleteLoop t store rest


/-! ### Reconciliation sweep (`src/hi/server/routes/storage.js`, `/cleanup`)

Keys are `List Char` here (a JS string is its character sequence), so the
prefix/suffix manipulation of the route can be reasoned about structurally.
-/


/-- Characters of the string `'encrypted/'`. -/
def encDir : List Char := ['e', 'n', 'c', 'r', 'y', 'p', 't', 'e', 'd', '/']


/-- Characters of the string `'metadata/'`. -/
def metaDir : List Char := ['m', 'e', 't', 'a', 'd', 'a', 't', 'a', '/']


/-- Characters of the string `'.json'`. -/
def jsonExt : List Char := ['.', 'j', 's', 'o', 'n']


/-- JS `String.prototype.replace(sub, '')`: remove the FIRST occurrence of
`sub` (the route calls it with plain strings, so no regex semantics). -/
def stripFirst (sub : List Char) : List Char → List Char
  | [] => []
  | c :: rest =>
    if sub.isPrefixOf (c :: rest) then (c :: rest).drop sub.length
    else c :: stripFirst sub rest


/-- Embedding of the orphan computation of `router.post('/cleanup')`
(`storage.js:108-145`): split the listing by prefix, derive each file's id
by `replace`, and collect files whose counterpart key is absent — first the
orphaned ciphertext files, then the orphaned metadata files, in listing
order, exactly as the two `for` loops push them. -/
def cleanupOrphans (files : List (List Char)) : List (List Char) :=
  let encryptedFiles := files.filter (fun f => encDir.isPrefixOf f)
  let metadataFiles := files.filter (fun f => metaDir.isPrefixOf f)
  let orphanedEncrypted := encryptedFiles.filter (fun ef =>
    let fileId := stripFirst encDir ef
    !(metadataFiles.contains (metaDir ++ fileId ++ jsonExt)))
  let orphanedMetadata := metadataFiles.filter (fun mf =>
    let fileId := stripFirst jsonExt (stripFirst metaDir mf)
    !(encryptedFiles.contains (encDir ++ fileId)))
  orphanedEncrypted ++ orphanedMetadata


/-! ### Concrete executable instances of the abstract primitives

These are NOT the real PBKDF2/SHA-512/AES-GCM (which no shallow embedding
can usefully carry); they are small computable stand-ins satisfying the
structural contracts the theorems hypothesise (determinism, fixed digest
width, AEAD round trip, tag mismatch on a different key), used to
instantiate witnesses and counterexamples.  Every claim theorem is stated
against the abstract `CryptoPrims`, so nothing about these stand-ins leaks
into the claims themselves. -/


/-- Deterministic 32-byte key stand-in for PBKDF2-SHA512. -/
def pbkdf2Model : String → List Nat → List Nat :=
  fun pw salt => ((pw.toList.map Char.toNat).map (fun n => n % 256) ++ salt ++
    List.replicate 32 0).take 32


/-- Deterministic 64-byte (128 hex character) digest stand-in for SHA-512. -/
def sha512Model : String → String :=
  fun s => String.mk (hexEncodeL ((s.toList.map (fun c : Char => c.toNat % 256) ++
    List.replicate 64 0).take 64))


/-- AEAD stand-in for the `createCipher('aes-256-gcm', key)` sequence: the
"ciphertext" is the data itself and the tag is the hex of the key, so the
round trip holds and a mismatched key is rejected. -/
def gcmModelEnc : List Nat → String → String × String :=
  fun key data => (data, String.mk (hexEncodeL key))


def gcmModelDec : List Nat → String → String → Except String String :=
  fun key ct tag =>
    if tag = String.mk (hexEncodeL key) then Except.ok ct
    else Except.error "Unsupported state or unable to authenticate data"


def cpModel : CryptoPrims :=
  { pbkdf2sha512 := pbkdf2Model
    sha512hex := sha512Model
    gcmEncrypt := gcmModelEnc
    gcmDecrypt := gcmModelDec }


/-! ### Shared contracts, fixtures and auxiliary lemmas for the claims -/


/-- AEAD round-trip contract of the cipher primitive: decrypting with the
same key and the produced tag recovers the data. -/
def GCMRoundtrip (cp : CryptoPrims) : Prop :=
  ∀ key data, cp.gcmDecrypt key (cp.gcmEncrypt key data).1 (cp.gcmEncrypt key data).2 =
    Except.ok data


/-- Concrete randomness fixture for witnesses and counterexamples. -/
def rndA : Rnd := { salt := [1, 2], iv := [3, 4], fileId := "id-1", timestamp := 5 }


/-- Concrete wrapper fixture: the two-byte plaintext `hi` encrypted under
`password1` through the model primitives. -/
def fileA : SecureFileResult :=
  createSecureFileWrapper cpModel rndA [104, 105] "password1" "report.pdf"


/-! ### Claim C5: reconciliation sweep -/


/-- Store listing holding exactly the ciphertext blobs of the identifier
list `C` and the metadata blobs of the identifier list `M`, under the key
layout `encrypted/<id>` and `metadata/<id>.json` used by the upload route
(part_002 lines 49-54). -/
def pairedListing (C M : List (List Char)) : List (List Char) :=
  C.map (fun i => encDir ++ i) ++ M.map (fun i => metaDir ++ i ++ jsonExt)


theorem hexDigitVal_hexChar : ∀ n, n < 16 → hexDigitVal (hexChar n) = some n := by
  decide


theorem hexDecodeL_hexEncodeL (l : List Nat) (h : ∀ b ∈ l, b < 256) :
    hexDecodeL (hexEncodeL l) = l := by
  induction l with
  | nil => rfl
  | cons b rest ih =>
    have hb : b < 256 := h b (by simp)
    have h1 : b / 16 % 16 < 16 := Nat.mod_lt _ (by omega)
    have h2 : b % 16 < 16 := Nat.mod_lt _ (by omega)
    have e : 16 * (b / 16 % 16) + b % 16 = b := by omega
    simp only [hexEncodeL, hexDecodeL, hexDigitVal_hexChar _ h1, hexDigitVal_hexChar _ h2,
      ih (fun x hx => h x (by simp [hx])), e]


theorem hexDecode_hexEncode (l : List Nat) (h : ∀ b ∈ l, b < 256) :
    hexDecode (hexEncode l) = l := by
  simpa [hexDecode, hexEncode] using hexDecodeL_hexEncodeL l h


theorem b64Val_b64Char : ∀ n, n < 64 → b64Val (b64Char n) = n := by
  decide


theorem b64Char_ne_pad : ∀ n, n < 64 → b64Char n ≠ '=' := by
  decide


theorem base64DecodeL_base64EncodeL :
    ∀ l : List Nat, (∀ b ∈ l, b < 256) → base64DecodeL (base64EncodeL l) = l
  | [], _ => rfl
  | [a], h => by
    have ha : a < 256 := h a (by simp)
    have h1 : a / 4 < 64 := by omega
    have h2 : a % 4 * 16 < 64 := by omega
    simp [base64EncodeL, base64DecodeL, b64Val_b64Char _ h1, b64Val_b64Char _ h2]
    omega
  | [a, b], h => by
    have ha : a < 256 := h a (by simp)
    have hb : b < 256 := h b (by simp)
    have h1 : a / 4 < 64 := by omega
    have h2 : a % 4 * 16 + b / 16 < 64 := by omega
    have h3 : b % 16 * 4 < 64 := by omega
    have e1 : a / 4 * 4 + (a % 4 * 16 + b / 16) / 16 = a := by omega
    simp [base64EncodeL, base64DecodeL, b64Char_ne_pad _ h3,
      b64Val_b64Char _ h1, b64Val_b64Char _ h2, b64Val_b64Char _ h3, e1]
    omega
  | a :: b :: c :: rest, h => by
    have ha : a < 256 := h a (by simp)
    have hb : b < 256 := h b (by simp)
    have hc : c < 256 := h c (by simp)
    have h1 : a / 4 < 64 := by omega
    have h2 : a % 4 * 16 + b / 16 < 64 := by omega
    have h3 : b % 16 * 4 + c / 64 < 64 := by omega
    have h4 : c % 64 < 64 := by omega
    have ih := base64DecodeL_base64EncodeL rest (fun x hx => h x (by simp [hx]))
    have e1 : a / 4 * 4 + (a % 4 * 16 + b / 16) / 16 = a := by omega
    have e2 : (a % 4 * 16 + b / 16) % 16 * 16 + (b % 16 * 4 + c / 64) / 4 = b := by omega
    have e3 : (b % 16 * 4 + c / 64) % 4 * 64 + c % 64 = c := by omega
    simp [base64EncodeL, base64DecodeL, b64Char_ne_pad _ h3, b64Char_ne_pad _ h4,
      b64Val_b64Char _ h1, b64Val_b64Char _ h2, b64Val_b64Char _ h3, b64Val_b64Char _ h4,
      e1, e2, e3, ih]


theorem base64Decode_base64Encode (l : List Nat) (h : ∀ b ∈ l, b < 256) :
    base64Decode (base64Encode l) = l := by
  simpa [base64Decode, base64Encode] using base64DecodeL_base64EncodeL l h


theorem occursIn_of_isPrefixOf {sub l : List Char} (h : sub.isPrefixOf l) :
    occursIn sub l = true := by
  cases l with
  | nil =>
    cases sub with
    | nil => rfl
    | cons c cs => simp [List.isPrefixOf] at h
  | cons c rest => simp [occursIn, h]


theorem sha512Model_decode_length (s : String) :
    (hexDecode (sha512Model s)).length = 64 := by
  have hlt : ∀ b ∈ (s.toList.map (fun c : Char => c.toNat % 256) ++
      List.replicate 64 0).take 64, b < 256 := by
    intro b hb
    have hb' := List.mem_of_mem_take hb
    rcases List.mem_append.mp hb' with h | h
    · obtain ⟨c, _, rfl⟩ := List.mem_map.mp h
      exact Nat.mod_lt _ (by omega)
    · have := List.eq_of_mem_replicate h
      omega
  have h2 := hexDecodeL_hexEncodeL _ hlt
  have h3 : hexDecode (sha512Model s) =
      (s.toList.map (fun c : Char => c.toNat % 256) ++ List.replicate 64 0).take 64 := by
    simpa [hexDecode, sha512Model, String.toList] using h2
  rw [h3]
  simp [List.length_take]


theorem cpModel_gcmRoundtrip : GCMRoundtrip cpModel := by
  intro key data
  simp [cpModel, gcmModelEnc, gcmModelDec]


theorem strIncludes_decryption_failed (m : String) :
    strIncludes ("Decryption failed: " ++ m) "Decryption failed" = true := rfl


/-- C1: for every byte string P (including the empty string) and every
password W of length at least 8, opening the wrapper produced by
create(P, W, name) with the same password W returns exactly P.  The open
path is the download route's verify-then-decrypt sequence; the AEAD
round-trip contract of `aes-256-gcm` is the `hgcm` hypothesis, and Buffer
bytes are below 256. -/
theorem C1_open_create_roundtrip (cp : CryptoPrims) (rnd : Rnd) (P : List Nat)
    (W name : String) (hgcm : GCMRoundtrip cp) (hP : ∀ b ∈ P, b < 256)
    (hsalt : ∀ b ∈ rnd.salt, b < 256) (hW : 8 ≤ W.length) :
    openWrapper cp (createSecureFileWrapper cp rnd P W name).encryptedData
      (createSecureFileWrapper cp rnd P W name).wrapper W = OpenOutcome.ok P := by
  simp only [openWrapper, createSecureFileWrapper, encryptFile, encrypt, verifyIntegrity,
    timingSafeEqual, generateIntegrityHash, decryptFile, decrypt]
  simp only [hexDecode_hexEncode rnd.salt hsalt, if_pos rfl, beq_self_eq_true]
  simp [hgcm (cp.pbkdf2sha512 W rnd.salt) (base64Encode P),
    base64Decode_base64Encode P hP, Except.map]


theorem C1_witness :
    8 ≤ ("password1" : String).length ∧
    openWrapper cpModel fileA.encryptedData fileA.wrapper "password1" =
      OpenOutcome.ok [104, 105] :=
  ⟨by decide,
    C1_open_create_roundtrip cpModel rndA [104, 105] "password1" "report.pdf"
      cpModel_gcmRoundtrip (by decide) (by decide) (by decide)⟩


/-- C2: the source constructs the cipher with `crypto.createCipher(alg, key)`
and `crypto.createDecipher(alg, key)` — the generated IV is NEVER supplied to
cipher initialization.  Consequently the ciphertext and authentication tag
are identical for any two generated IVs (only the recorded `metadata.iv`
hex differs), and `decrypt` is insensitive to the stored IV field.  This
refutes the claim that the per-record nonce is explicitly supplied to the
cipher on encrypt and decrypt. -/
theorem C2_generated_iv_ignored_by_cipher (cp : CryptoPrims) (salt iv1 iv2 : List Nat)
    (fid : String) (ts : Nat) (data password : String) :
    ((encrypt cp { salt := salt, iv := iv1, fileId := fid, timestamp := ts } data
        password).encrypted =
      (encrypt cp { salt := salt, iv := iv2, fileId := fid, timestamp := ts } data
        password).encrypted) ∧
    ((encrypt cp { salt := salt, iv := iv1, fileId := fid, timestamp := ts } data
        password).metadata.tag =
      (encrypt cp { salt := salt, iv := iv2, fileId := fid, timestamp := ts } data
        password).metadata.tag) ∧
    ((encrypt cp { salt := salt, iv := iv1, fileId := fid, timestamp := ts } data
        password).metadata.iv = hexEncode iv1) ∧
    (∀ (ed : String) (m : CipherMetadata) (ivx pw : String),
      decrypt cp ed { m with iv := ivx } pw = decrypt cp ed m pw) :=
  ⟨rfl, rfl, rfl, fun _ _ _ _ => rfl⟩


/-- C6: the wrapper records `originalSize` as the plaintext buffer's byte
length, `encryptedSize` as the length of the ciphertext blob it emits (the
hex string `encryptionResult.encrypted`, whose UTF-16/byte length is its
character count), and `version` as `1.0.0`. -/
theorem C6_wrapper_sizes (cp : CryptoPrims) (rnd : Rnd) (P : List Nat)
    (W name : String) :
    (createSecureFileWrapper cp rnd P W name).wrapper.originalSize = P.length ∧
    (createSecureFileWrapper cp rnd P W name).wrapper.encryptedSize =
      (createSecureFileWrapper cp rnd P W name).encryptedData.length ∧
    (createSecureFileWrapper cp rnd P W name).wrapper.version = "1.0.0" :=
  ⟨rfl, rfl, rfl⟩


/-- C3 counterexample: the integrity digest covers only the ciphertext and
the cipher metadata (`encryption.js:115-118`), not the rest of the stored
wrapper.  Flipping one bit of the `filename` field of the stored metadata
blob (`report.pdf` → `report.qdf`, a single-bit change since `p` is 0x70
and `q` is 0x71) leaves the digest valid: open does NOT raise
IntegrityError — it decrypts and returns the plaintext. -/
theorem C3_counterexample :
    openWrapper cpModel fileA.encryptedData
      { fileA.wrapper with filename := "report.qdf" } "password1" =
      OpenOutcome.ok [104, 105] ∧
    OpenOutcome.ok ([104, 105] : List Nat) ≠ OpenOutcome.integrityFailed := by
  constructor
  · decide
  · decide


/-- C3 (amended): for any stored record whose ciphertext blob or cipher
metadata was modified so that the recomputed digest differs from the stored
one (same decoded width, i.e. no SHA-512 collision and an intact digest
field), open answers the integrity failure — and does so before any
decryption: the outcome is the same for every possible cipher-decrypt
behaviour.  Wrapper fields outside the digest (id, filename, sizes,
timestamp, top-level version) are not covered. -/
theorem C3_amended_tamper_rejected_before_decrypt (cp : CryptoPrims) (ed : String)
    (w : Wrapper) (pw : String)
    (hne : hexDecode (generateIntegrityHash cp ed w.metadata) ≠ hexDecode w.integrity)
    (hlen : (hexDecode (generateIntegrityHash cp ed w.metadata)).length =
      (hexDecode w.integrity).length) :
    openWrapper cp ed w pw = OpenOutcome.integrityFailed ∧
    downloadResponse (openWrapper cp ed w pw) =
      RouteResult.jsonError 400 "File integrity check failed" ∧
    (∀ d, openWrapper { cp with gcmDecrypt := d } ed w pw =
      OpenOutcome.integrityFailed) := by
  have hverify : verifyIntegrity cp ed w.metadata w.integrity = Except.ok false := by
    simp only [verifyIntegrity, timingSafeEqual, if_pos hlen]
    simp [beq_eq_false_iff_ne, hne]
  refine ⟨?_, ?_, ?_⟩
  · simp [openWrapper, hverify]
  · simp [openWrapper, hverify, downloadResponse]
  · intro d
    have hverify' : verifyIntegrity { cp with gcmDecrypt := d } ed w.metadata w.integrity =
        Except.ok false := hverify
    simp [openWrapper, hverify']


theorem C3_witness :
    openWrapper cpModel ("X" ++ fileA.encryptedData.drop 1) fileA.wrapper "password1" =
      OpenOutcome.integrityFailed ∧
    downloadResponse (openWrapper cpModel ("X" ++ fileA.encryptedData.drop 1)
      fileA.wrapper "password1") = RouteResult.jsonError 400 "File integrity check failed" :=
  ⟨(C3_amended_tamper_rejected_before_decrypt cpModel ("X" ++ fileA.encryptedData.drop 1)
      fileA.wrapper "password1" (by decide) (by decide)).1,
    (C3_amended_tamper_rejected_before_decrypt cpModel ("X" ++ fileA.encryptedData.drop 1)
      fileA.wrapper "password1" (by decide) (by decide)).2.1⟩


/-- C4: opening a wrapper with a wrong password W' raises the
`Decryption failed: ...` error (the code's AuthenticationError), which the
download route reports as 400 `Invalid password or corrupted file`, and no
plaintext is returned.  The cryptographic idealization is the `hauth`
hypothesis: the AEAD rejects, for every message, the key derived from W'
against a tag produced under the key derived from W (wrong password gives a
different key and the tag check fails). -/
theorem C4_wrong_password_rejected (cp : CryptoPrims) (rnd : Rnd) (P : List Nat)
    (W W' name : String) (hne : W' ≠ W) (hsalt : ∀ b ∈ rnd.salt, b < 256)
    (hauth : ∀ data, ∃ em, cp.gcmDecrypt (cp.pbkdf2sha512 W' rnd.salt)
        (cp.gcmEncrypt (cp.pbkdf2sha512 W rnd.salt) data).1
        (cp.gcmEncrypt (cp.pbkdf2sha512 W rnd.salt) data).2 = Except.error em) :
    (∃ em, openWrapper cp (createSecureFileWrapper cp rnd P W name).encryptedData
        (createSecureFileWrapper cp rnd P W name).wrapper W' =
        OpenOutcome.caught ("Decryption failed: " ++ em)) ∧
    downloadResponse (openWrapper cp (createSecureFileWrapper cp rnd P W name).encryptedData
        (createSecureFileWrapper cp rnd P W name).wrapper W') =
      RouteResult.jsonError 400 "Invalid password or corrupted file" ∧
    (∀ Q, openWrapper cp (createSecureFileWrapper cp rnd P W name).encryptedData
        (createSecureFileWrapper cp rnd P W name).wrapper W' ≠ OpenOutcome.ok Q) := by
  obtain ⟨em, hem⟩ := hauth (base64Encode P)
  have hopen : openWrapper cp (createSecureFileWrapper cp rnd P W name).encryptedData
      (createSecureFileWrapper cp rnd P W name).wrapper W' =
      OpenOutcome.caught ("Decryption failed: " ++ em) := by
    simp only [openWrapper, createSecureFileWrapper, encryptFile, encrypt, verifyIntegrity,
      timingSafeEqual, generateIntegrityHash, decryptFile, decrypt]
    simp only [hexDecode_hexEncode rnd.salt hsalt, if_pos rfl, beq_self_eq_true]
    simp [hem, Except.map]
  refine ⟨⟨em, hopen⟩, ?_, ?_⟩
  · rw [hopen]
    simp [downloadResponse, strIncludes_decryption_failed]
  · intro Q h
    rw [hopen] at h
    exact OpenOutcome.noConfusion h


theorem C4_witness :
    ("password2" : String) ≠ "password1" ∧
    downloadResponse (openWrapper cpModel fileA.encryptedData fileA.wrapper "password2") =
      RouteResult.jsonError 400 "Invalid password or corrupted file" :=
  ⟨by decide,
    (C4_wrong_password_rejected cpModel rndA [104, 105] "password1" "password2" "report.pdf"
      (by decide) (by decide)
      (fun data => ⟨"Unsupported state or unable to authenticate data", by
        simp only [cpModel, gcmModelEnc, gcmModelDec]
        rw [if_neg (by decide)]⟩)).2.1⟩


/-- C7: the download route does NOT report integrity failures with the same
generic message as authentication failures: an integrity failure answers
400 `File integrity check failed` (part_002 line 99) while a wrong password
answers 400 `Invalid password or corrupted file` (line 119) — two distinct
outward messages, evaluated here on a concrete record (ciphertext first
character corrupted vs. wrong password `password2`). -/
theorem C7_outward_messages_differ :
    downloadResponse (openWrapper cpModel ("X" ++ fileA.encryptedData.drop 1)
      fileA.wrapper "password1") = RouteResult.jsonError 400 "File integrity check failed" ∧
    downloadResponse (openWrapper cpModel fileA.encryptedData fileA.wrapper "password2") =
      RouteResult.jsonError 400 "Invalid password or corrupted file" ∧
    RouteResult.jsonError 400 "File integrity check failed" ≠
      RouteResult.jsonError 400 "Invalid password or corrupted file" := by
  refine ⟨by decide, by decide, by decide⟩


/-- C8 counterexample: on the local-filesystem backend, deleting a key with
no stored blob is an error, not an acknowledgement — `fs.unlink` raises
ENOENT and `deleteFile` re-throws it as `Delete failed: ...`. -/
theorem C8_counterexample :
    deleteFile StorageType.local [] "encrypted/x" =
      Except.error "Delete failed: ENOENT: no such file or directory, unlink" := rfl


/-- C8 (amended): the object-storage backend acknowledges every delete,
missing key or not; the local backend errors exactly when the key is
missing, and the reconciliation sweep's delete loop treats that failure by
skipping the key — it is logged and left out of `cleanedFiles`, not treated
as successfully deleted. -/
theorem C8_amended_delete_backends (store : Store) (key : String) :
    (∃ s, deleteFile StorageType.s3 store key = Except.ok s) ∧
    (store.any (fun kv => kv.1 == key) = false →
      deleteFile StorageType.local store key =
        Except.error "Delete failed: ENOENT: no such file or directory, unlink" ∧
      cleanupDeleteLoop StorageType.local store [key] = (store, [])) ∧
    (store.any (fun kv => kv.1 == key) = true →
      ∃ s, deleteFile StorageType.local store key = Except.ok s) := by
  refine ⟨⟨_, rfl⟩, ?_, ?_⟩
  · intro h
    have hdel : deleteFile StorageType.local store key =
        Except.error "Delete failed: ENOENT: no such file or directory, unlink" := by
      simp [deleteFile, deleteFromLocal, h]
    exact ⟨hdel, by simp [cleanupDeleteLoop, hdel]⟩
  · intro h
    refine ⟨store.filter (fun kv => !(kv.1 == key)), ?_⟩
    simp [deleteFile, deleteFromLocal, h]


theorem C8_witness :
    (∃ s, deleteFile StorageType.s3 [("a", "1")] "b" = Except.ok s) ∧
    deleteFile StorageType.local [("a", "1")] "b" =
      Except.error "Delete failed: ENOENT: no such file or directory, unlink" ∧
    cleanupDeleteLoop StorageType.local [("a", "1")] ["b"] = ([("a", "1")], []) ∧
    (∃ s, deleteFile StorageType.local [("a", "1")] "a" = Except.ok s) :=
  ⟨(C8_amended_delete_backends [("a", "1")] "b").1,
    ((C8_amended_delete_backends [("a", "1")] "b").2.1 (by decide)).1,
    ((C8_amended_delete_backends [("a", "1")] "b").2.1 (by decide)).2,
    (C8_amended_delete_backends [("a", "1")] "a").2.2 (by decide)⟩


/-- C9 counterexample: `deriveKey` performs no salt validation whatever — it
is a bare `crypto.pbkdf2` call, and Node's `pbkdf2` accepts a salt of any
length.  With an empty salt (and with a 3-byte salt) it succeeds instead of
failing, refuting the claim that derive fails on empty or wrong-length
salts. -/
theorem C9_counterexample :
    deriveKey cpModel "password1" [] = Except.ok (cpModel.pbkdf2sha512 "password1" []) ∧
    deriveKey cpModel "password1" [1, 2, 3] =
      Except.ok (cpModel.pbkdf2sha512 "password1" [1, 2, 3]) :=
  ⟨rfl, rfl⟩


/-- C9 (amended): `derive(password, salt)` never fails: for every password
and every byte-string salt — empty, short, long or 32 bytes — it returns
the 32-byte PBKDF2 key.  The half of the claim that holds is that it never
fails due to password content; the malformed-salt failure mode does not
exist in the code. -/
theorem C9_amended_derive_total (cp : CryptoPrims)
    (hlen : ∀ pw s, (cp.pbkdf2sha512 pw s).length = 32)
    (password : String) (salt : List Nat) :
    ∃ k, deriveKey cp password salt = Except.ok k ∧ k.length = 32 :=
  ⟨_, rfl, hlen password salt⟩


theorem pbkdf2Model_length (pw : String) (s : List Nat) :
    (pbkdf2Model pw s).length = 32 := by
  simp [pbkdf2Model, List.length_take]
  omega


theorem C9_witness :
    ∃ k, deriveKey cpModel "pw" [] = Except.ok k ∧ k.length = 32 :=
  C9_amended_derive_total cpModel pbkdf2Model_length "pw" []


/-- C10: `verifyIntegrity` hands `timingSafeEqual` the 64-byte decoded
SHA-512 digest on the left; it therefore returns a boolean exactly when the
hex decoding of `expectedHash` is also 64 bytes, and throws the
length-mismatch exception for every other decoded length. -/
theorem C10_verify_length_gate (cp : CryptoPrims)
    (hwf : ∀ s, (hexDecode (cp.sha512hex s)).length = 64)
    (ed : String) (m : CipherMetadata) (expectedHash : String) :
    ((hexDecode expectedHash).length = 64 →
      ∃ b, verifyIntegrity cp ed m expectedHash = Except.ok b) ∧
    ((hexDecode expectedHash).length ≠ 64 →
      verifyIntegrity cp ed m expectedHash =
        Except.error "Input buffers must have the same byte length") := by
  constructor
  · intro h
    refine ⟨hexDecode (generateIntegrityHash cp ed m) == hexDecode expectedHash, ?_⟩
    simp [verifyIntegrity, timingSafeEqual, generateIntegrityHash, hwf, h]
  · intro h
    simp only [verifyIntegrity, timingSafeEqual, generateIntegrityHash, hwf]
    rw [if_neg (fun hc => h hc.symm)]


theorem C10_witness :
    verifyIntegrity cpModel "x" fileA.wrapper.metadata "00" =
      Except.error "Input buffers must have the same byte length" ∧
    (∃ b, verifyIntegrity cpModel "x" fileA.wrapper.metadata (sha512Model "y") =
      Except.ok b) :=
  ⟨(C10_verify_length_gate cpModel sha512Model_decode_length "x" fileA.wrapper.metadata
      "00").2 (by decide),
    (C10_verify_length_gate cpModel sha512Model_decode_length "x" fileA.wrapper.metadata
      (sha512Model "y")).1 (by decide)⟩


theorem enc_isPrefixOf_enc (x : List Char) :
    encDir.isPrefixOf (encDir ++ x) = true := by
  simp [encDir, List.isPrefixOf]


theorem meta_isPrefixOf_meta (x : List Char) :
    metaDir.isPrefixOf (metaDir ++ x) = true := by
  simp [metaDir, List.isPrefixOf]


theorem enc_isPrefixOf_meta (x : List Char) :
    encDir.isPrefixOf (metaDir ++ x) = false := by
  simp [encDir, metaDir, List.isPrefixOf]


theorem meta_isPrefixOf_enc (x : List Char) :
    metaDir.isPrefixOf (encDir ++ x) = false := by
  simp [encDir, metaDir, List.isPrefixOf]


theorem stripFirst_enc (x : List Char) :
    stripFirst encDir (encDir ++ x) = x := by
  simp [encDir, stripFirst, List.isPrefixOf]


theorem stripFirst_meta (x : List Char) :
    stripFirst metaDir (metaDir ++ x) = x := by
  simp [metaDir, stripFirst, List.isPrefixOf]


/-- Removing the first `.json` occurrence from `m ++ ".json"` recovers `m`
whenever `m` contains no `.` — in particular for the UUID identifiers the
system generates (hex digits and dashes). -/
theorem stripFirst_json (m : List Char) (hm : '.' ∉ m) :
    stripFirst jsonExt (m ++ jsonExt) = m := by
  induction m with
  | nil => simp [jsonExt, stripFirst, List.isPrefixOf]
  | cons c rest ih =>
    have hc : ('.' == c) = false := by
      refine beq_eq_false_iff_ne.mpr (fun h => hm ?_)
      rw [h]
      exact List.mem_cons_self _ _
    have hpre : jsonExt.isPrefixOf (c :: (rest ++ jsonExt)) = false := by
      simp only [jsonExt, List.isPrefixOf, hc, Bool.false_and]
    have hrest : '.' ∉ rest := fun h => hm (List.mem_cons_of_mem _ h)
    simp [stripFirst, hpre, ih hrest]


theorem filterEncOfEnc (L : List (List Char)) :
    (L.map (fun i => encDir ++ i)).filter (fun f => encDir.isPrefixOf f) =
      L.map (fun i => encDir ++ i) := by
  induction L with
  | nil => rfl
  | cons a t ih => simp [enc_isPrefixOf_enc, ih]


theorem filterEncOfMeta (L : List (List Char)) :
    (L.map (fun i => metaDir ++ i ++ jsonExt)).filter
      (fun f => encDir.isPrefixOf f) = [] := by
  induction L with
  | nil => rfl
  | cons a t ih =>
    rw [List.map_cons, List.filter_cons]
    rw [show encDir.isPrefixOf (metaDir ++ a ++ jsonExt) = false from by
      rw [List.append_assoc]; exact enc_isPrefixOf_meta _]
    simpa using ih


theorem filterMetaOfEnc (L : List (List Char)) :
    (L.map (fun i => encDir ++ i)).filter (fun f => metaDir.isPrefixOf f) = [] := by
  induction L with
  | nil => rfl
  | cons a t ih => simp [meta_isPrefixOf_enc, ih]


theorem filterMetaOfMeta (L : List (List Char)) :
    (L.map (fun i => metaDir ++ i ++ jsonExt)).filter
      (fun f => metaDir.isPrefixOf f) =
      L.map (fun i => metaDir ++ i ++ jsonExt) := by
  induction L with
  | nil => rfl
  | cons a t ih => simp [List.append_assoc, meta_isPrefixOf_meta, ih]


theorem encKey_ne_metaKey (a b : List Char) :
    encDir ++ a ≠ metaDir ++ b ++ jsonExt := by
  intro h
  simp [encDir, metaDir] at h


/-- C5 (amended): on a store whose ciphertext ids are `C` and metadata ids
are `M`, the sweep's orphan set is exactly the symmetric difference — every
id in C without metadata loses its ciphertext key, every id in M without
ciphertext loses its metadata key, and nothing of a matched pair (C ∩ M) is
touched — PROVIDED no identifier in `M` contains the character `.` (true of
the UUID identifiers the system generates).  The proviso is forced by the
code's `replace('.json', '')`, which removes the FIRST `.json` occurrence
rather than the suffix and so mis-derives ids containing `.json` (see the
counterexample). -/
theorem C5_amended_sweep_exact (C M : List (List Char)) (hM : ∀ m ∈ M, '.' ∉ m) :
    (∀ id, (encDir ++ id) ∈ cleanupOrphans (pairedListing C M) ↔
      (id ∈ C ∧ id ∉ M)) ∧
    (∀ id, (metaDir ++ id ++ jsonExt) ∈ cleanupOrphans (pairedListing C M) ↔
      (id ∈ M ∧ id ∉ C)) ∧
    (∀ f ∈ cleanupOrphans (pairedListing C M),
      (∃ id, id ∈ C ∧ id ∉ M ∧ f = encDir ++ id) ∨
      (∃ id, id ∈ M ∧ id ∉ C ∧ f = metaDir ++ id ++ jsonExt)) := by
  have horph : cleanupOrphans (pairedListing C M) =
      (C.map (fun i => encDir ++ i)).filter (fun ef =>
        !((M.map (fun i => metaDir ++ i ++ jsonExt)).contains
          (metaDir ++ stripFirst encDir ef ++ jsonExt))) ++
      (M.map (fun i => metaDir ++ i ++ jsonExt)).filter (fun mf =>
        !((C.map (fun i => encDir ++ i)).contains
          (encDir ++ stripFirst jsonExt (stripFirst metaDir mf)))) := by
    simp only [cleanupOrphans, pairedListing, List.filter_append, filterEncOfEnc,
      filterEncOfMeta, filterMetaOfEnc, filterMetaOfMeta, List.append_nil,
      List.nil_append]
  have hmemMeta : ∀ x : List Char,
      ((M.map (fun i => metaDir ++ i ++ jsonExt)).contains
        (metaDir ++ x ++ jsonExt)) = decide (x ∈ M) := by
    intro x
    have h0 : (M.map (fun i => metaDir ++ i ++ jsonExt)).contains
        (metaDir ++ x ++ jsonExt) =
        List.elem (metaDir ++ x ++ jsonExt)
          (M.map (fun i => metaDir ++ i ++ jsonExt)) := rfl
    rw [h0, List.elem_eq_mem, decide_eq_decide]
    simp
  have hmemEnc : ∀ x : List Char,
      ((C.map (fun i => encDir ++ i)).contains (encDir ++ x)) =
        decide (x ∈ C) := by
    intro x
    have h0 : (C.map (fun i => encDir ++ i)).contains (encDir ++ x) =
        List.elem (encDir ++ x) (C.map (fun i => encDir ++ i)) := rfl
    rw [h0, List.elem_eq_mem, decide_eq_decide]
    simp
  have hstripMeta : ∀ id ∈ M,
      stripFirst jsonExt (stripFirst metaDir (metaDir ++ id ++ jsonExt)) = id := by
    intro id hid
    rw [List.append_assoc, stripFirst_meta, stripFirst_json id (hM id hid)]
  refine ⟨?_, ?_, ?_⟩
  · intro id
    rw [horph]
    simp only [List.mem_append, List.mem_filter, List.mem_map]
    constructor
    · rintro (⟨⟨c, hc, hkey⟩, hpred⟩ | ⟨⟨m, hm', hkey⟩, _⟩)
      · obtain rfl : c = id := List.append_cancel_left hkey
        rw [stripFirst_enc, hmemMeta] at hpred
        exact ⟨hc, by simpa using hpred⟩
      · exact absurd hkey.symm (encKey_ne_metaKey id m)
    · rintro ⟨hC, hMn⟩
      left
      refine ⟨⟨id, hC, rfl⟩, ?_⟩
      rw [stripFirst_enc, hmemMeta]
      simpa using hMn
  · intro id
    rw [horph]
    simp only [List.mem_append, List.mem_filter, List.mem_map]
    constructor
    · rintro (⟨⟨c, hc, hkey⟩, _⟩ | ⟨⟨m, hm', hkey⟩, hpred⟩)
      · exact absurd hkey (encKey_ne_metaKey c id)
      · have hmid : m = id :=
          List.append_cancel_left (List.append_cancel_right hkey)
        rw [hmid] at hm'
        rw [hstripMeta id hm', hmemEnc] at hpred
        exact ⟨hm', by simpa using hpred⟩
    · rintro ⟨hMm, hCn⟩
      right
      refine ⟨⟨id, hMm, rfl⟩, ?_⟩
      rw [hstripMeta id hMm, hmemEnc]
      simpa using hCn
  · intro f hf
    rw [horph] at hf
    rcases List.mem_append.mp hf with h | h
    · left
      obtain ⟨hmem, hpred⟩ := List.mem_filter.mp h
      obtain ⟨c, hc, rfl⟩ := List.mem_map.mp hmem
      rw [stripFirst_enc, hmemMeta] at hpred
      exact ⟨c, hc, by simpa using hpred, rfl⟩
    · right
      obtain ⟨hmem, hpred⟩ := List.mem_filter.mp h
      obtain ⟨m, hm', rfl⟩ := List.mem_map.mp hmem
      rw [hstripMeta m hm', hmemEnc] at hpred
      exact ⟨m, hm', by simpa using hpred, rfl⟩


/-- C5 counterexample: with ciphertext ids C = metadata ids M = the single
identifier `a.jsonb` (so the symmetric difference is empty and the claim
demands that nothing be deleted), the sweep nonetheless deletes the pair's
metadata blob `metadata/a.jsonb.json`: the id-derivation
`replace('.json', '')` removes the FIRST `.json` occurrence, mis-deriving
the id as `ab.json` and concluding the metadata file is orphaned. -/
theorem C5_counterexample :
    cleanupOrphans (pairedListing ["a.jsonb".toList] ["a.jsonb".toList]) =
      [metaDir ++ "a.jsonb".toList ++ jsonExt] := by decide


theorem C5_witness :
    (encDir ++ "aa".toList) ∈
      cleanupOrphans (pairedListing ["aa".toList, "bb".toList]
        ["bb".toList, "cc".toList]) ∧
    (metaDir ++ "bb".toList ++ jsonExt) ∉
      cleanupOrphans (pairedListing ["aa".toList, "bb".toList]
        ["bb".toList, "cc".toList]) ∧
    (encDir ++ "bb".toList) ∉
      cleanupOrphans (pairedListing ["aa".toList, "bb".toList]
        ["bb".toList, "cc".toList]) ∧
    (metaDir ++ "cc".toList ++ jsonExt) ∈
      cleanupOrphans (pairedListing ["aa".toList, "bb".toList]
        ["bb".toList, "cc".toList]) := by
  have h := C5_amended_sweep_exact ["aa".toList, "bb".toList]
    ["bb".toList, "cc".toList] (by decide)
  refine ⟨(h.1 _).mpr (by decide), ?_, ?_, (h.2.1 _).mpr (by decide)⟩
  · intro hx
    have hc := (h.2.1 ("bb".toList)).mp hx
    revert hc
    decide
  · intro hx
    have hc := (h.1 ("bb".toList)).mp hx
    revert hc
    decide


end Cloud
